import Mathlib

set_option linter.unusedVariables false

/-!
Verification of the medical-telegram-warehouse ingestion pipeline.

Shallow embedding of the repository's Python code:
* `scripts/load_raw_to_postgres.py` — record normalization and the
  idempotent warehouse loader (`ON CONFLICT (message_id) DO NOTHING`);
* `src/datalake.py` — manifest writer;
* `src/scraper.py` — channel scraper (throttle / access-error handling,
  per-message defaults);
* `dagster_pipeline/pipeline.py` — the five-stage job graph
  (scrape → load → transform → enrich → publish).

Python dicts are modelled as association lists with unique keys
(leftmost binding authoritative); Python values as the inductive `PyVal`;
fallible external calls as explicit `Except` / event-list inputs.
-/

namespace MedWarehouse

/-- Python float values as far as the loader can observe them: a finite
float carries its exact (rational) value; `inf`, `-inf` and `nan` — all
producible by `json.load` (`Infinity`, `-Infinity`, `NaN` literals) — are
separate cases. -/
inductive PyFloat where
  | finite : ℚ → PyFloat
  | posInf : PyFloat
  | negInf : PyFloat
  | nan : PyFloat

/-- Python/JSON values as they occur in the scraped records. -/
inductive PyVal where
  | vNone : PyVal
  | vInt : Int → PyVal
  | vFloat : PyFloat → PyVal
  | vStr : String → PyVal
  | vBool : Bool → PyVal
  | vList : List PyVal → PyVal
  | vDict : List (String × PyVal) → PyVal

/-- The exceptions `int(...)` can raise: `ValueError` and `TypeError` are
caught by `normalize_record`'s `except (ValueError, TypeError)`;
`OverflowError` (raised by `int(float('inf'))`) is not and propagates. -/
inductive PyErr where
  | valueError
  | typeError
  | overflowError

/-- A Python dict with string keys: an association list, first binding wins. -/
abbrev Dict := List (String × PyVal)

/-- `d[k]` lookup: first binding for `k`, if any. -/
def dictLookup (d : Dict) (k : String) : Option PyVal :=
  match d with
  | [] => none
  | (k', v) :: rest => if k' = k then some v else dictLookup rest k

/-- `d[k] = v`: replace the first binding for `k` in place, else append. -/
def dictSet (d : Dict) (k : String) (v : PyVal) : Dict :=
  match d with
  | [] => [(k, v)]
  | (k', v') :: rest => if k' = k then (k, v) :: rest else (k', v') :: dictSet rest k v

/-- `d.pop(k)` (the removal part): drop the first binding for `k`. -/
def dictErase (d : Dict) (k : String) : Dict :=
  match d with
  | [] => []
  | (k', v') :: rest => if k' = k then rest else (k', v') :: dictErase rest k

/-- Digits-only string body to a natural number (`none` on empty or non-digit). -/
def digitsToNat : List Char → Option Nat
  | [] => none
  | cs =>
    cs.foldl
      (fun acc c =>
        acc.bind (fun n => if c.isDigit then some (n * 10 + (c.toNat - '0'.toNat)) else none))
      (some 0)

/-- Leading and trailing whitespace removal (the strip `int(...)` performs). -/
def stripSpaces (cs : List Char) : List Char :=
  ((cs.dropWhile (fun c => c.isWhitespace)).reverse.dropWhile
    (fun c => c.isWhitespace)).reverse

/-- Python `int(s)` on a string: strip whitespace, optional sign, decimal digits;
`none` models the `ValueError` raised otherwise (e.g. `int("abc")`). -/
def pyIntOfString (s : String) : Option Int :=
  match stripSpaces s.toList with
  | '+' :: rest => (digitsToNat rest).map Int.ofNat
  | '-' :: rest => (digitsToNat rest).map (fun n => -(n : Int))
  | cs => (digitsToNat cs).map Int.ofNat

/-- Truncation toward zero of a rational: what `int()` does to a finite float. -/
def ratTrunc (q : ℚ) : Int := Int.tdiv q.num (q.den : Int)

/-- Python `int(v)`: integers pass through, booleans map to 0/1, strings are
parsed (`ValueError` on failure), finite floats truncate toward zero,
infinite floats raise `OverflowError`, `nan` raises `ValueError`, and
`None`, lists and dicts raise `TypeError`. -/
def pyInt : PyVal → Except PyErr Int
  | PyVal.vInt n => Except.ok n
  | PyVal.vBool b => Except.ok (if b then 1 else 0)
  | PyVal.vStr s =>
    match pyIntOfString s with
    | some n => Except.ok n
    | none => Except.error PyErr.valueError
  | PyVal.vFloat (PyFloat.finite q) => Except.ok (ratTrunc q)
  | PyVal.vFloat PyFloat.posInf => Except.error PyErr.overflowError
  | PyVal.vFloat PyFloat.negInf => Except.error PyErr.overflowError
  | PyVal.vFloat PyFloat.nan => Except.error PyErr.valueError
  | PyVal.vNone => Except.error PyErr.typeError
  | PyVal.vList _ => Except.error PyErr.typeError
  | PyVal.vDict _ => Except.error PyErr.typeError

/-- The key-rename table of `normalize_record` (JSON/CSV names → DB columns). -/
def renameTable : List (String × String) :=
  [("text", "message_text"), ("file_path", "media_file"),
   ("date", "message_date"), ("url", "message_url")]

/-- The 13 required keys of the canonical message record. -/
def requiredKeys : List String :=
  ["message_id", "channel_id", "channel_username", "channel_title",
   "message_date", "message_text", "views", "forwards", "replies",
   "media_type", "media_file", "message_url", "scraped_at"]

/-- The five fields coerced to integers by `normalize_record`. -/
def intFields : List String :=
  ["views", "forwards", "replies", "channel_id", "message_id"]

/-- The two timestamp fields normalized from `""` to `None`. -/
def tsFields : List String := ["message_date", "scraped_at"]

/-- One step of the rename loop: `if k in record: record[v] = record.pop(k)`. -/
def renameOne (d : Dict) (p : String × String) : Dict :=
  match dictLookup d p.1 with
  | some v => dictSet (dictErase d p.1) p.2 v
  | none => d

/-- The rename loop over the whole table. -/
def applyRenames (d : Dict) : Dict := renameTable.foldl renameOne d

/-- One step of the required-key loop:
`if key not in record or record[key] is None: record[key] = None`. -/
def fillOne (d : Dict) (key : String) : Dict :=
  match dictLookup d key with
  | none => dictSet d key PyVal.vNone
  | some PyVal.vNone => dictSet d key PyVal.vNone
  | some _ => d

/-- The required-key loop over all 13 keys. -/
def fillRequired (d : Dict) : Dict := requiredKeys.foldl fillOne d

/-- One step of the numeric-coercion loop: a `None` field becomes `0`;
otherwise `int(...)` is attempted — its result is stored, a caught
`ValueError`/`TypeError` defaults the field to `0`, and an uncaught
`OverflowError` propagates out of the loop. -/
def coerceIntField (d : Dict) (f : String) : Except PyErr Dict :=
  match dictLookup d f with
  | none => Except.ok d
  | some PyVal.vNone => Except.ok (dictSet d f (PyVal.vInt 0))
  | some v =>
    match pyInt v with
    | Except.ok n => Except.ok (dictSet d f (PyVal.vInt n))
    | Except.error PyErr.valueError => Except.ok (dictSet d f (PyVal.vInt 0))
    | Except.error PyErr.typeError => Except.ok (dictSet d f (PyVal.vInt 0))
    | Except.error PyErr.overflowError => Except.error PyErr.overflowError

/-- The numeric-coercion loop: fields in order, an exception ends the loop. -/
def coerceIntFieldsAux : List String → Dict → Except PyErr Dict
  | [], d => Except.ok d
  | f :: rest, d =>
    match coerceIntField d f with
    | Except.ok d2 => coerceIntFieldsAux rest d2
    | Except.error e => Except.error e

/-- The numeric-coercion loop over the five integer fields. -/
def coerceIntFields (d : Dict) : Except PyErr Dict := coerceIntFieldsAux intFields d

/-- One step of the timestamp loop: `if record[ts_field] == "": record[ts_field] = None`. -/
def fixTsField (d : Dict) (f : String) : Dict :=
  match dictLookup d f with
  | some (PyVal.vStr s) => if s = "" then dictSet d f PyVal.vNone else d
  | _ => d

/-- `normalize_record` on a value already known to be a dict: the timestamp
loop runs only when the numeric loop did not raise. -/
def normalizeDict (d : Dict) : Except PyErr Dict :=
  match coerceIntFields (fillRequired (applyRenames d)) with
  | Except.ok d2 => Except.ok (tsFields.foldl fixTsField d2)
  | Except.error e => Except.error e

/-- `normalize_record`: non-dict inputs yield `{}`, dict inputs are
normalized (possibly raising an uncaught `OverflowError`). -/
def normalize_record : PyVal → Except PyErr Dict
  | PyVal.vDict d => normalizeDict d
  | _ => Except.ok []

/-- `True` iff the value is a dict (`isinstance(record, dict)`). -/
def isDictVal : PyVal → Bool
  | PyVal.vDict _ => true
  | _ => false

/-! ## The idempotent loader (`scripts/load_raw_to_postgres.py`, `SQL` / `main`) -/

/-- The `message_id` column value of an insert row, when it is an integer. -/
def msgIdOf (r : Dict) : Option Int :=
  match dictLookup r "message_id" with
  | some (PyVal.vInt n) => some n
  | _ => none

/-- Whether the committed table already holds a row with the given `message_id`
(the uniqueness constraint behind `ON CONFLICT (message_id) DO NOTHING`). -/
def hasKey (t : List Dict) (k : Option Int) : Bool :=
  t.any (fun rr => decide (msgIdOf rr = k))

/-- One `INSERT ... ON CONFLICT (message_id) DO NOTHING`: a colliding row is
silently dropped, otherwise the row is appended to the table. -/
def insertRow (t : List Dict) (r : Dict) : List Dict :=
  if hasKey t (msgIdOf r) then t else t ++ [r]

/-- `execute_batch(cur, SQL, records)`: the inserts execute in order. -/
def loadBatch (t : List Dict) (records : List Dict) : List Dict :=
  records.foldl insertRow t

/-- `main()`: the final table together with the reported count
(`none` when the record list was empty and `main` returned early). -/
def mainRun (t : List Dict) (records : List Dict) : List Dict × Option Nat :=
  if records.isEmpty then (t, none)
  else (loadBatch t records, some records.length)

/-! ## The partitioned store writer (`src/datalake.py`, `write_manifest`) -/

/-- `sum(channel_message_counts.values())`. -/
def sumCounts (counts : List (String × Int)) : Int :=
  counts.foldl (fun acc p => acc + p.2) 0

/-- `write_manifest`: the manifest payload written for the date partition.
`extra` defaults to `None`; a truthy `extra` is merged via `payload.update`. -/
def write_manifest (dateStr runUtc : String) (counts : List (String × Int))
    (extra : Option Dict) : Dict :=
  let payload : Dict :=
    [("date", PyVal.vStr dateStr),
     ("run_utc", PyVal.vStr runUtc),
     ("channels", PyVal.vDict (counts.map (fun p => (p.1, PyVal.vInt p.2)))),
     ("total_messages", PyVal.vInt (sumCounts counts))]
  match extra with
  | some e => if e.isEmpty then payload else e.foldl (fun d p => dictSet d p.1 p.2) payload
  | none => payload

/-! ## The channel scraper (`src/scraper.py`) -/

/-- `MediaType` enum of the scraper. -/
inductive MediaType where
  | photo | video | audio | document | other

/-- `.value` of a `MediaType`. -/
def mediaTypeVal : MediaType → String
  | .photo => "photo"
  | .video => "video"
  | .audio => "audio"
  | .document => "document"
  | .other => "other"

/-- A document attribute: a filename attribute or anything else. -/
inductive DocAttr where
  | filename (nameStr : String)
  | otherAttr

/-- The `msg.media` field: a photo, a document with attributes, or nothing
(models `MessageMediaPhoto` / `MessageMediaDocument` / other-or-absent). -/
inductive MediaVal where
  | photo
  | document (attrs : List DocAttr)
  | noMedia

/-- `detect_media_type`: photos map to `photo`; for documents the attribute
list is scanned for a filename whose lowered extension marks video or audio,
falling back to `document`; anything else yields `None`. -/
def detect_media_type : MediaVal → Option MediaType
  | .photo => some MediaType.photo
  | .document attrs =>
    match attrs.findSome? (fun a =>
      match a with
      | DocAttr.filename n =>
        let ln := n.toLower
        if ln.endsWith ".mp4" || ln.endsWith ".mkv" then some MediaType.video
        else if ln.endsWith ".mp3" || ln.endsWith ".wav" then some MediaType.audio
        else none
      | DocAttr.otherAttr => none) with
    | some t => some t
    | none => some MediaType.document
  | .noMedia => none

/-- `message.replies` as seen by `extract_replies`: absent (`None`), a proper
count object, or a malformed object whose access raises. -/
inductive ReplyInfo where
  | absent
  | count (n : Int)
  | malformed

/-- `extract_replies`: `message.replies.replies if message.replies else 0`,
with any exception caught and defaulted to `0`. -/
def extract_replies : ReplyInfo → Int
  | .absent => 0
  | .count n => n
  | .malformed => 0

/-- The entity `get_entity` resolves a channel to. -/
structure Entity where
  id : Int
  username : Option String
  title : Option String

/-- One post yielded by `client.iter_messages`. -/
structure Post where
  id : Int
  dateIso : Option String
  text : Option String
  views : Option Int
  forwards : Option Int
  replies : ReplyInfo
  editDateIso : Option String
  media : MediaVal
  downloadResult : Option String

/-- The canonical `TelegramMessage` dataclass. -/
structure TelegramMessage where
  message_id : Int
  channel_id : Int
  channel_username : String
  channel_title : String
  date : String
  text : String
  views : Int
  forwards : Int
  replies : Int
  edit_date : Option String
  media_type : Option String
  file_path : Option String
  url : String
  scraped_at : String

/-- Python `x or fallback` for an optional string (`None` and `""` are falsy). -/
def pyOrStr (o : Option String) (fallback : String) : String :=
  match o with
  | some s => if s = "" then fallback else s
  | none => fallback

/-- Python `x or 0` for an optional integer. -/
def pyOrInt (o : Option Int) : Int :=
  match o with
  | some n => n
  | none => 0

/-- The `TelegramMessage(...)` construction inside `scrape_channel` for one post. -/
def buildMessage (entity : Entity) (channel : String) (scrapedAt : String) (p : Post) :
    TelegramMessage :=
  let mt := detect_media_type p.media
  { message_id := p.id
    channel_id := entity.id
    channel_username := pyOrStr entity.username channel
    channel_title := pyOrStr entity.title ""
    date := match p.dateIso with | some d => d | none => ""
    text := pyOrStr p.text ""
    views := pyOrInt p.views
    forwards := pyOrInt p.forwards
    replies := extract_replies p.replies
    edit_date := p.editDateIso
    media_type := mt.map mediaTypeVal
    file_path := if mt.isSome then p.downloadResult else none
    url := match entity.username with
      | some u => if u = "" then "" else "https://t.me/" ++ u ++ "/" ++ toString p.id
      | none => ""
    scraped_at := scrapedAt }

/-- One step of the upstream enumeration: a post, a post whose processing
raises (inner `except`, message skipped), a `FloodWaitError` with its wait
duration, or an access error (`ChannelPrivateError`/`UsernameNotOccupiedError`). -/
inductive IterEvent where
  | post (p : Post)
  | badPost
  | floodWait (seconds : Nat)
  | accessError

/-- Result of `scrape_channel`: collected messages, the flood-wait sleeps
performed, and whether an exception escaped (never, in the source). -/
structure ScrapeChannelResult where
  messages : List TelegramMessage
  sleeps : List Nat
  raised : Bool

/-- The `async for` loop of `scrape_channel` with its two exception handlers:
a good post is appended; a bad post is skipped and logged; a flood-wait raised
by the enumeration escapes the loop, is caught, sleeps, and the function
returns the messages collected so far; an access error likewise ends the
channel with the messages collected so far. -/
def scrapeLoop (entity : Entity) (channel : String) (scrapedAt : String)
    (acc : List TelegramMessage) : List IterEvent → ScrapeChannelResult
  | [] => ⟨acc, [], false⟩
  | IterEvent.post p :: rest =>
    scrapeLoop entity channel scrapedAt (acc ++ [buildMessage entity channel scrapedAt p]) rest
  | IterEvent.badPost :: rest => scrapeLoop entity channel scrapedAt acc rest
  | IterEvent.floodWait s :: _ => ⟨acc, [s], false⟩
  | IterEvent.accessError :: _ => ⟨acc, [], false⟩

/-- What `get_entity` for a channel can do: resolve to an entity whose
enumeration then yields the given events, flood-wait, or deny access. -/
inductive ResolveResult where
  | ok (entity : Entity) (events : List IterEvent)
  | floodWait (seconds : Nat)
  | accessError

/-- `scrape_channel client channel`: resolution followed by the enumeration
loop; both `FloodWaitError` and access errors are caught at the channel level. -/
def scrape_channel (rr : ResolveResult) (channel : String) (scrapedAt : String) :
    ScrapeChannelResult :=
  match rr with
  | ResolveResult.ok entity events => scrapeLoop entity channel scrapedAt [] events
  | ResolveResult.floodWait s => ⟨[], [s], false⟩
  | ResolveResult.accessError => ⟨[], [], false⟩

/-! ## The orchestrator (`dagster_pipeline/pipeline.py`) -/

/-- Python truthiness of a loaded JSON value (`if data:`). -/
def pyTruthy : PyVal → Bool
  | PyVal.vNone => false
  | PyVal.vInt n => n != 0
  | PyVal.vFloat (PyFloat.finite q) => decide (q ≠ 0)
  | PyVal.vFloat _ => true
  | PyVal.vStr s => s != ""
  | PyVal.vBool b => b
  | PyVal.vList l => !l.isEmpty
  | PyVal.vDict d => !d.isEmpty

/-- Summary returned by the Load stage op. -/
structure LoadSummary where
  loaded_records : Nat
  status : String

/-- The `load_raw_to_postgres` op: skipped without a loader, `no_files` when
the scrape reported zero files, otherwise the first 50 JSON files are loaded
(per-file exceptions caught), and the stage reports success with the total.
`loadToRaw` is the external `DataLoader.load_to_raw` record-count function. -/
def load_raw_to_postgres_op (hasLoader : Bool) (scrapedFiles : Nat)
    (files : List (Except String PyVal)) (loadToRaw : PyVal → Nat) : LoadSummary :=
  if !hasLoader then ⟨0, "skipped"⟩
  else if scrapedFiles = 0 then ⟨0, "no_files"⟩
  else
    let total := (files.take 50).foldl
      (fun acc file =>
        match file with
        | Except.ok data => if pyTruthy data then acc + loadToRaw data else acc
        | Except.error _ => acc) 0
    ⟨total, "success"⟩

/-- Sequencing of the three dbt sub-commands: a non-zero exit of `test` is
logged and skipped, a non-zero exit of any other sub-command raises. -/
def runDbtCommands : List (String × Int) → Except String Unit
  | [] => Except.ok ()
  | (nameStr, rc) :: rest =>
    if rc ≠ 0 then
      if nameStr = "test" then runDbtCommands rest
      else Except.error ("dbt command failed: " ++ nameStr)
    else runDbtCommands rest

/-- Summary returned by the Transform stage op. -/
structure DbtSummary where
  dbt_status : String
  loaded_records : Nat
  tests_passed : Bool
  error : Option String

/-- The `run_dbt_transformations` op: runs `run`, `test`, `docs` in order;
the success return hardcodes `tests_passed := true`; any raised failure is
caught and reported as a failed summary with `tests_passed := false`. -/
def run_dbt_transformations (loaded : Nat) (runRc testRc docsRc : Int) : DbtSummary :=
  match runDbtCommands [("run", runRc), ("test", testRc), ("docs", docsRc)] with
  | Except.ok _ => ⟨"success", loaded, true, none⟩
  | Except.error e => ⟨"failed", loaded, false, some e⟩

/-- `value_counts().to_dict()` over the per-image categories. -/
def tallyCategories (cats : List String) : List (String × Nat) :=
  cats.dedup.map (fun c => (c, cats.count c))

/-- Summary returned by the Enrich stage op. -/
structure YoloSummary where
  detected_images : Nat
  yolo_status : String
  category_counts : List (String × Nat)
  error : Option String

/-- The `run_yolo_enrichment` op: degrades to a skipped summary when the
detector module or the images directory is unavailable; otherwise the
detector's outcome yields a success or a caught-failure summary. The dbt
summary is consumed for sequencing only. -/
def run_yolo_enrichment (hasYolo : Bool) (imagesDirExists : Bool)
    (detectResult : Except String (List String)) (dbtResult : DbtSummary) : YoloSummary :=
  if !hasYolo then ⟨0, "skipped", [], some "Module not found"⟩
  else if !imagesDirExists then ⟨0, "skipped", [], some "Images directory not found"⟩
  else
    match detectResult with
    | Except.ok cats => ⟨cats.length, "success", tallyCategories cats, none⟩
    | Except.error e => ⟨0, "failed", [], some e⟩

/-- Summary returned by the Publish stage op. -/
structure PublishSummary where
  api_status : String
  total_processed : Nat
  category_counts : List (String × Nat)
  yolo_status : String

/-- The `start_fastapi` op: a readiness report aggregating the enrich summary. -/
def start_fastapi (y : YoloSummary) : PublishSummary :=
  ⟨"ready", y.detected_images, y.category_counts, y.yolo_status⟩

/-- Summary returned by the Scrape stage op (the part the Load stage reads). -/
structure ScrapeStageSummary where
  scraped_files : Nat

/-- External world of one pipeline run: the scrape outcome (an exception from
the scrape op is fatal after retries), loader availability, the JSON files
found under the scrape output directory, the external loader, the three dbt
exit codes, detector availability, and the detector's outcome. -/
structure PipelineEnv where
  scrapeResult : Except String ScrapeStageSummary
  hasLoader : Bool
  files : List (Except String PyVal)
  loadToRaw : PyVal → Nat
  runRc : Int
  testRc : Int
  docsRc : Int
  hasYolo : Bool
  imagesDirExists : Bool
  detectResult : Except String (List String)

/-- The `medical_telegram_pipeline` job: scrape → load → transform → enrich
→ publish, each stage consuming its predecessor's summary. -/
def medical_telegram_pipeline (env : PipelineEnv) : Except String PublishSummary :=
  match env.scrapeResult with
  | Except.error e => Except.error e
  | Except.ok scraped =>
    let loaded := load_raw_to_postgres_op env.hasLoader scraped.scraped_files
      env.files env.loadToRaw
    let transformed := run_dbt_transformations loaded.loaded_records
      env.runRc env.testRc env.docsRc
    let enriched := run_yolo_enrichment env.hasYolo env.imagesDirExists
      env.detectResult transformed
    Except.ok (start_fastapi enriched)

/-! ## Derived definitions used in the statements -/

/-- The input-side condition under which `normalize_record` defaults an
integer field to `0`: the field is absent, `None`, or fails `int(...)` with
a caught `ValueError`/`TypeError`. -/
def intDefaulted (o : Option PyVal) : Bool :=
  match o with
  | none => true
  | some v =>
    match pyInt v with
    | Except.error PyErr.valueError => true
    | Except.error PyErr.typeError => true
    | _ => false

/-- The input-side condition under which `normalize_record` raises: the
field holds a value whose `int(...)` raises an uncaught `OverflowError`. -/
def intOverflows (o : Option PyVal) : Bool :=
  match o with
  | none => false
  | some v =>
    match pyInt v with
    | Except.error PyErr.overflowError => true
    | _ => false

/-- Events a healthy enumeration yields: posts, possibly some skipped. -/
def isPostEvent : IterEvent → Bool
  | IterEvent.post _ => true
  | IterEvent.badPost => true
  | _ => false

/-- The messages `scrape_channel` builds from a list of enumeration events
(skipped posts contribute nothing). -/
def collectMessages (entity : Entity) (channel scrapedAt : String)
    (events : List IterEvent) : List TelegramMessage :=
  events.filterMap (fun ev =>
    match ev with
    | IterEvent.post p => some (buildMessage entity channel scrapedAt p)
    | _ => none)

/-! ## Concrete values used in counterexamples and witnesses -/

/-- A plain concrete post: no media, ordinary metadata. -/
def plainPost (n : Int) : Post :=
  { id := n, dateIso := some "2026-01-16T00:00:00", text := some "hello",
    views := some 3, forwards := some 1, replies := ReplyInfo.count 2,
    editDateIso := none, media := MediaVal.noMedia, downloadResult := none }

/-- A concrete post with everything absent or malformed. -/
def emptyPost : Post :=
  { id := 9, dateIso := none, text := none, views := none, forwards := none,
    replies := ReplyInfo.malformed, editDateIso := none, media := MediaVal.noMedia,
    downloadResult := none }

/-- A concrete two-record batch whose records share `message_id = 1`. -/
def batchDup : List Dict :=
  [[("message_id", PyVal.vInt 1), ("message_text", PyVal.vStr "a")],
   [("message_id", PyVal.vInt 1), ("message_text", PyVal.vStr "b")]]

/-- A concrete scrape of a channel whose enumeration throttles after one post
and would have yielded another post afterwards. -/
def throttledRun : ScrapeChannelResult :=
  scrape_channel
    (ResolveResult.ok ⟨7, some "chan", some "T"⟩
      [IterEvent.post (plainPost 1), IterEvent.floodWait 5, IterEvent.post (plainPost 2)])
    "@cheMed123" "t0"

/-- A concrete `main` run: the table already holds `message_id = 1` and the
batch consists of one colliding record. -/
def collidedRun : List Dict × Option Nat :=
  mainRun [[("message_id", PyVal.vInt 1)]]
    [[("message_id", PyVal.vInt 1), ("message_text", PyVal.vStr "dup")]]

/-- A concrete pipeline environment whose detector module is unavailable. -/
def envSkip : PipelineEnv :=
  { scrapeResult := Except.ok ⟨3⟩, hasLoader := true, files := [],
    loadToRaw := fun _ => 0, runRc := 0, testRc := 0, docsRc := 0,
    hasYolo := false, imagesDirExists := true,
    detectResult := Except.error "unavailable" }

/-- Fifty concrete JSON-file outcomes for the load-stage limit. -/
def manyFiles : List (Except String PyVal) := List.replicate 50 (Except.error "io")

/-! ## Association-list dictionary lemmas -/

theorem dictLookup_dictSet_self (d : Dict) (k : String) (v : PyVal) :
    dictLookup (dictSet d k v) k = some v := by
  induction d with
  | nil => simp [dictSet, dictLookup]
  | cons hd tl ih =>
    obtain ⟨k', v'⟩ := hd
    by_cases h : k' = k
    · simp [dictSet, h, dictLookup]
    · simp [dictSet, h, dictLookup, ih]

theorem dictLookup_dictSet_other (d : Dict) (k f : String) (v : PyVal) (h : k ≠ f) :
    dictLookup (dictSet d k v) f = dictLookup d f := by
  induction d with
  | nil => simp [dictSet, dictLookup, h]
  | cons hd tl ih =>
    obtain ⟨k', v'⟩ := hd
    by_cases hk : k' = k
    · subst hk
      simp [dictSet, dictLookup, h]
    · by_cases hf : k' = f
      · simp [dictSet, hk, dictLookup, hf, Ne.symm h]
      · simp [dictSet, hk, dictLookup, hf, ih]

theorem dictLookup_dictErase_other (d : Dict) (k f : String) (h : k ≠ f) :
    dictLookup (dictErase d k) f = dictLookup d f := by
  induction d with
  | nil => simp [dictErase]
  | cons hd tl ih =>
    obtain ⟨k', v'⟩ := hd
    by_cases hk : k' = k
    · subst hk
      simp [dictErase, dictLookup, h]
    · by_cases hf : k' = f
      · simp [dictErase, hk, dictLookup, hf, Ne.symm h]
      · simp [dictErase, hk, dictLookup, hf, ih]

/-! ## Normalizer lemmas: the rename loop -/

theorem renameOne_other (d : Dict) (p : String × String) (f : String)
    (h1 : f ≠ p.1) (h2 : f ≠ p.2) :
    dictLookup (renameOne d p) f = dictLookup d f := by
  unfold renameOne
  cases hk : dictLookup d p.1 with
  | none => rfl
  | some v =>
    rw [dictLookup_dictSet_other _ _ _ _ (Ne.symm h2),
        dictLookup_dictErase_other _ _ _ (Ne.symm h1)]

theorem foldl_renameOne_other (l : List (String × String)) (d : Dict) (f : String)
    (h : ∀ p ∈ l, f ≠ p.1 ∧ f ≠ p.2) :
    dictLookup (l.foldl renameOne d) f = dictLookup d f := by
  induction l generalizing d with
  | nil => rfl
  | cons hd tl ih =>
    rw [List.foldl_cons, ih _ (fun p hp => h p (List.mem_cons_of_mem _ hp)),
        renameOne_other d hd f (h hd (List.mem_cons_self _ _)).1
          (h hd (List.mem_cons_self _ _)).2]

theorem applyRenames_intField (d : Dict) (f : String) (hf : f ∈ intFields) :
    dictLookup (applyRenames d) f = dictLookup d f := by
  have hall : ∀ f ∈ intFields, ∀ p ∈ renameTable, f ≠ p.1 ∧ f ≠ p.2 := by decide
  exact foldl_renameOne_other _ _ _ (hall f hf)

/-! ## Normalizer lemmas: the required-key loop -/

theorem fillOne_self_isSome (d : Dict) (key : String) :
    (dictLookup (fillOne d key) key).isSome := by
  unfold fillOne
  cases h : dictLookup d key with
  | none => simp [dictLookup_dictSet_self]
  | some v => cases v <;> simp [dictLookup_dictSet_self, h]

theorem fillOne_some (d : Dict) (key f : String) (w : PyVal)
    (h : dictLookup d f = some w) :
    dictLookup (fillOne d key) f = some w := by
  unfold fillOne
  by_cases hk : key = f
  · subst hk
    rw [h]
    cases w <;> simp [dictLookup_dictSet_self, h]
  · cases hl : dictLookup d key with
    | none => rw [dictLookup_dictSet_other _ _ _ _ hk, h]
    | some v =>
      cases v <;> simp [dictLookup_dictSet_other _ _ _ _ hk, h]

theorem fillOne_other (d : Dict) (key f : String) (hk : key ≠ f) :
    dictLookup (fillOne d key) f = dictLookup d f := by
  unfold fillOne
  cases hl : dictLookup d key with
  | none => rw [dictLookup_dictSet_other _ _ _ _ hk]
  | some v => cases v <;> simp [dictLookup_dictSet_other _ _ _ _ hk]

theorem fillOne_default (d : Dict) (f : String)
    (h : dictLookup d f = none ∨ dictLookup d f = some PyVal.vNone) :
    dictLookup (fillOne d f) f = some PyVal.vNone := by
  unfold fillOne
  rcases h with h | h <;> rw [h] <;> simp [dictLookup_dictSet_self]

theorem foldlFill_some (l : List String) (d : Dict) (f : String) (w : PyVal)
    (h : dictLookup d f = some w) :
    dictLookup (l.foldl fillOne d) f = some w := by
  induction l generalizing d with
  | nil => exact h
  | cons hd tl ih => exact ih _ (fillOne_some _ _ _ _ h)

theorem foldlFill_mem_isSome (l : List String) (d : Dict) (f : String) (hf : f ∈ l) :
    (dictLookup (l.foldl fillOne d) f).isSome := by
  induction l generalizing d with
  | nil => cases hf
  | cons hd tl ih =>
    by_cases hhd : hd = f
    · subst hhd
      rw [List.foldl_cons]
      obtain ⟨w, hw⟩ := Option.isSome_iff_exists.mp (fillOne_self_isSome d hd)
      rw [foldlFill_some _ _ _ _ hw]
      rfl
    · rcases List.mem_cons.mp hf with hf' | hf'
      · exact absurd hf'.symm hhd
      · exact ih _ hf'

theorem foldlFill_default (l : List String) (d : Dict) (f : String) (hf : f ∈ l)
    (h : dictLookup d f = none ∨ dictLookup d f = some PyVal.vNone) :
    dictLookup (l.foldl fillOne d) f = some PyVal.vNone := by
  induction l generalizing d with
  | nil => cases hf
  | cons hd tl ih =>
    rw [List.foldl_cons]
    by_cases hhd : hd = f
    · subst hhd
      exact foldlFill_some _ _ _ _ (fillOne_default d hd h)
    · rcases List.mem_cons.mp hf with hf' | hf'
      · exact absurd hf'.symm hhd
      · exact ih _ hf' (by rw [fillOne_other _ _ _ hhd]; exact h)

/-! ## Normalizer lemmas: the numeric-coercion loop -/

theorem coerceIntField_eq (d : Dict) (f : String) :
    coerceIntField d f =
      match dictLookup d f with
      | none => Except.ok d
      | some v =>
        match pyInt v with
        | Except.ok n => Except.ok (dictSet d f (PyVal.vInt n))
        | Except.error PyErr.overflowError => Except.error PyErr.overflowError
        | Except.error _ => Except.ok (dictSet d f (PyVal.vInt 0)) := by
  unfold coerceIntField
  cases dictLookup d f with
  | none => rfl
  | some v =>
    cases v with
    | vNone => rfl
    | vInt n => rfl
    | vBool b => rfl
    | vFloat pf => cases pf <;> rfl
    | vStr s =>
      cases hp : pyInt (PyVal.vStr s) with
      | ok n => simp [hp]
      | error e => cases e <;> simp [hp]
    | vList l => rfl
    | vDict dd => rfl

theorem coerceIntField_none (d : Dict) (f : String) (hl : dictLookup d f = none) :
    coerceIntField d f = Except.ok d := by
  rw [coerceIntField_eq, hl]

theorem coerceIntField_some (d : Dict) (f : String) (v : PyVal)
    (hl : dictLookup d f = some v) :
    coerceIntField d f =
      match pyInt v with
      | Except.ok n => Except.ok (dictSet d f (PyVal.vInt n))
      | Except.error PyErr.overflowError => Except.error PyErr.overflowError
      | Except.error _ => Except.ok (dictSet d f (PyVal.vInt 0)) := by
  rw [coerceIntField_eq, hl]

theorem intOverflows_some (v : PyVal) :
    intOverflows (some v) =
      match pyInt v with
      | Except.error PyErr.overflowError => true
      | _ => false := rfl

theorem intDefaulted_some (v : PyVal) :
    intDefaulted (some v) =
      match pyInt v with
      | Except.error PyErr.valueError => true
      | Except.error PyErr.typeError => true
      | _ => false := rfl

theorem coerceIntField_ok_of_noOverflow (d : Dict) (f : String)
    (h : intOverflows (dictLookup d f) = false) :
    ∃ d2, coerceIntField d f = Except.ok d2 := by
  cases hl : dictLookup d f with
  | none => exact ⟨d, coerceIntField_none d f hl⟩
  | some v =>
    rw [hl, intOverflows_some] at h
    rw [coerceIntField_some d f v hl]
    cases hp : pyInt v with
    | ok n => exact ⟨_, rfl⟩
    | error e =>
      cases e with
      | valueError => exact ⟨_, rfl⟩
      | typeError => exact ⟨_, rfl⟩
      | overflowError => rw [hp] at h; simp at h

theorem coerceIntField_err_of_overflow (d : Dict) (f : String)
    (h : intOverflows (dictLookup d f) = true) :
    coerceIntField d f = Except.error PyErr.overflowError := by
  cases hl : dictLookup d f with
  | none => rw [hl] at h; simp [intOverflows] at h
  | some v =>
    rw [hl, intOverflows_some] at h
    rw [coerceIntField_some d f v hl]
    cases hp : pyInt v with
    | ok n => rw [hp] at h; simp at h
    | error e =>
      cases e with
      | overflowError => rfl
      | valueError => rw [hp] at h; simp at h
      | typeError => rw [hp] at h; simp at h

theorem coerceIntField_ok_other (d d2 : Dict) (f g : String) (hfg : f ≠ g)
    (hstep : coerceIntField d f = Except.ok d2) :
    dictLookup d2 g = dictLookup d g := by
  cases hl : dictLookup d f with
  | none =>
    rw [coerceIntField_none d f hl] at hstep
    cases hstep
    rfl
  | some v =>
    rw [coerceIntField_some d f v hl] at hstep
    cases hp : pyInt v with
    | ok n =>
      rw [hp] at hstep
      cases hstep
      exact dictLookup_dictSet_other _ _ _ _ hfg
    | error e =>
      cases e with
      | overflowError => rw [hp] at hstep; exact Except.noConfusion hstep
      | valueError =>
        rw [hp] at hstep
        cases hstep
        exact dictLookup_dictSet_other _ _ _ _ hfg
      | typeError =>
        rw [hp] at hstep
        cases hstep
        exact dictLookup_dictSet_other _ _ _ _ hfg

theorem coerceIntField_ok_self_vInt (d d2 : Dict) (f : String)
    (hsome : (dictLookup d f).isSome)
    (hstep : coerceIntField d f = Except.ok d2) :
    ∃ n : Int, dictLookup d2 f = some (PyVal.vInt n) := by
  cases hl : dictLookup d f with
  | none => rw [hl] at hsome; simp at hsome
  | some v =>
    rw [coerceIntField_some d f v hl] at hstep
    cases hp : pyInt v with
    | ok n =>
      rw [hp] at hstep
      cases hstep
      exact ⟨n, dictLookup_dictSet_self _ _ _⟩
    | error e =>
      cases e with
      | overflowError => rw [hp] at hstep; exact Except.noConfusion hstep
      | valueError =>
        rw [hp] at hstep
        cases hstep
        exact ⟨0, dictLookup_dictSet_self _ _ _⟩
      | typeError =>
        rw [hp] at hstep
        cases hstep
        exact ⟨0, dictLookup_dictSet_self _ _ _⟩

theorem coerceIntField_ok_keeps_vInt (d d2 : Dict) (f g : String) (n : Int)
    (hv : dictLookup d f = some (PyVal.vInt n))
    (hstep : coerceIntField d g = Except.ok d2) :
    dictLookup d2 f = some (PyVal.vInt n) := by
  by_cases hfg : g = f
  · subst hfg
    rw [coerceIntField_some d g (PyVal.vInt n) hv] at hstep
    simp only [pyInt] at hstep
    cases hstep
    exact dictLookup_dictSet_self _ _ _
  · rw [coerceIntField_ok_other d d2 g f hfg hstep]
    exact hv

theorem coerceIntField_ok_default (d d2 : Dict) (f : String)
    (hdef : ∃ v, dictLookup d f = some v ∧ intDefaulted (some v) = true)
    (hstep : coerceIntField d f = Except.ok d2) :
    dictLookup d2 f = some (PyVal.vInt 0) := by
  obtain ⟨v, hv, hd⟩ := hdef
  rw [intDefaulted_some] at hd
  rw [coerceIntField_some d f v hv] at hstep
  cases hp : pyInt v with
  | ok n => rw [hp] at hd; simp at hd
  | error e =>
    cases e with
    | overflowError => rw [hp] at hd; simp at hd
    | valueError =>
      rw [hp] at hstep
      cases hstep
      exact dictLookup_dictSet_self _ _ _
    | typeError =>
      rw [hp] at hstep
      cases hstep
      exact dictLookup_dictSet_self _ _ _

theorem coerceIntField_ok_isSome (d d2 : Dict) (f g : String)
    (hsome : (dictLookup d g).isSome)
    (hstep : coerceIntField d f = Except.ok d2) :
    (dictLookup d2 g).isSome := by
  by_cases hfg : f = g
  · subst hfg
    obtain ⟨n, hn⟩ := coerceIntField_ok_self_vInt d d2 f hsome hstep
    rw [hn]; rfl
  · rw [coerceIntField_ok_other d d2 f g hfg hstep]; exact hsome

theorem coerceIntField_ok_noOverflow_preserve (d d2 : Dict) (f g : String)
    (h : intOverflows (dictLookup d g) = false)
    (hstep : coerceIntField d f = Except.ok d2) :
    intOverflows (dictLookup d2 g) = false := by
  by_cases hfg : f = g
  · subst hfg
    cases hl : dictLookup d f with
    | none =>
      rw [coerceIntField_none d f hl] at hstep
      cases hstep
      exact h
    | some v =>
      have hsome : (dictLookup d f).isSome := by rw [hl]; rfl
      obtain ⟨n, hn⟩ := coerceIntField_ok_self_vInt d d2 f hsome hstep
      rw [hn]
      rfl
  · rw [coerceIntField_ok_other d d2 f g hfg hstep]; exact h

theorem coerceAux_ok_of_noOverflow (l : List String) (d : Dict)
    (h : ∀ f ∈ l, intOverflows (dictLookup d f) = false) :
    ∃ d2, coerceIntFieldsAux l d = Except.ok d2 := by
  induction l generalizing d with
  | nil => exact ⟨d, rfl⟩
  | cons hd tl ih =>
    obtain ⟨d1, h1⟩ := coerceIntField_ok_of_noOverflow d hd (h hd (List.mem_cons_self _ _))
    obtain ⟨d2, h2⟩ := ih d1 (fun f hf =>
      coerceIntField_ok_noOverflow_preserve d d1 hd f
        (h f (List.mem_cons_of_mem _ hf)) h1)
    refine ⟨d2, ?_⟩
    unfold coerceIntFieldsAux
    rw [h1]
    exact h2

theorem coerceAux_err_of_overflow (l : List String) (d : Dict) (f : String)
    (hf : f ∈ l) (hov : intOverflows (dictLookup d f) = true) :
    coerceIntFieldsAux l d = Except.error PyErr.overflowError := by
  induction l generalizing d with
  | nil => cases hf
  | cons hd tl ih =>
    cases hcase : intOverflows (dictLookup d hd) with
    | true =>
      unfold coerceIntFieldsAux
      rw [coerceIntField_err_of_overflow d hd hcase]
    | false =>
      obtain ⟨d1, h1⟩ := coerceIntField_ok_of_noOverflow d hd hcase
      unfold coerceIntFieldsAux
      rw [h1]
      have hfhd : f ≠ hd := by
        intro he
        subst he
        rw [hov] at hcase
        exact Bool.noConfusion hcase
      have hft : f ∈ tl := by
        rcases List.mem_cons.mp hf with h | h
        · exact absurd h hfhd
        · exact h
      refine ih d1 hft ?_
      rw [coerceIntField_ok_other d d1 hd f (fun he => hfhd he.symm) h1]
      exact hov

theorem coerceAux_ok_keeps_vInt (l : List String) (d d2 : Dict) (f : String) (n : Int)
    (hv : dictLookup d f = some (PyVal.vInt n))
    (hfold : coerceIntFieldsAux l d = Except.ok d2) :
    dictLookup d2 f = some (PyVal.vInt n) := by
  induction l generalizing d with
  | nil =>
    unfold coerceIntFieldsAux at hfold
    injection hfold with h2
    subst h2
    exact hv
  | cons hd tl ih =>
    unfold coerceIntFieldsAux at hfold
    cases h1 : coerceIntField d hd with
    | ok d1 =>
      rw [h1] at hfold
      exact ih d1 (coerceIntField_ok_keeps_vInt d d1 f hd n hv h1) hfold
    | error e => rw [h1] at hfold; exact Except.noConfusion hfold

theorem coerceAux_mem_vInt (l : List String) (d d2 : Dict) (f : String)
    (hf : f ∈ l) (hsome : (dictLookup d f).isSome)
    (hfold : coerceIntFieldsAux l d = Except.ok d2) :
    ∃ n : Int, dictLookup d2 f = some (PyVal.vInt n) := by
  induction l generalizing d with
  | nil => cases hf
  | cons hd tl ih =>
    unfold coerceIntFieldsAux at hfold
    cases h1 : coerceIntField d hd with
    | error e => rw [h1] at hfold; exact Except.noConfusion hfold
    | ok d1 =>
      rw [h1] at hfold
      by_cases hhd : hd = f
      · subst hhd
        obtain ⟨n, hn⟩ := coerceIntField_ok_self_vInt d d1 hd hsome h1
        exact ⟨n, coerceAux_ok_keeps_vInt tl d1 d2 hd n hn hfold⟩
      · rcases List.mem_cons.mp hf with h | h
        · exact absurd h.symm hhd
        · exact ih d1 h (coerceIntField_ok_isSome d d1 hd f hsome h1) hfold

theorem coerceAux_mem_default (l : List String) (d d2 : Dict) (f : String)
    (hf : f ∈ l)
    (hdef : ∃ v, dictLookup d f = some v ∧ intDefaulted (some v) = true)
    (hfold : coerceIntFieldsAux l d = Except.ok d2) :
    dictLookup d2 f = some (PyVal.vInt 0) := by
  induction l generalizing d with
  | nil => cases hf
  | cons hd tl ih =>
    unfold coerceIntFieldsAux at hfold
    cases h1 : coerceIntField d hd with
    | error e => rw [h1] at hfold; exact Except.noConfusion hfold
    | ok d1 =>
      rw [h1] at hfold
      by_cases hhd : hd = f
      · subst hhd
        have h0 : dictLookup d1 hd = some (PyVal.vInt 0) :=
          coerceIntField_ok_default d d1 hd hdef h1
        exact coerceAux_ok_keeps_vInt tl d1 d2 hd 0 h0 hfold
      · rcases List.mem_cons.mp hf with h | h
        · exact absurd h.symm hhd
        · obtain ⟨v, hv, hd2⟩ := hdef
          exact ih d1 h
            ⟨v, by rw [coerceIntField_ok_other d d1 hd f hhd h1]; exact hv, hd2⟩ hfold

theorem coerceAux_isSome (l : List String) (d d2 : Dict) (f : String)
    (hsome : (dictLookup d f).isSome)
    (hfold : coerceIntFieldsAux l d = Except.ok d2) :
    (dictLookup d2 f).isSome := by
  induction l generalizing d with
  | nil =>
    unfold coerceIntFieldsAux at hfold
    injection hfold with h2
    subst h2
    exact hsome
  | cons hd tl ih =>
    unfold coerceIntFieldsAux at hfold
    cases h1 : coerceIntField d hd with
    | error e => rw [h1] at hfold; exact Except.noConfusion hfold
    | ok d1 =>
      rw [h1] at hfold
      exact ih d1 (coerceIntField_ok_isSome d d1 hd f hsome h1) hfold

theorem fill_intOverflows (d : Dict) (f : String) (hreq : f ∈ requiredKeys)
    (hint : f ∈ intFields) :
    intOverflows (dictLookup (requiredKeys.foldl fillOne (applyRenames d)) f)
      = intOverflows (dictLookup d f) := by
  have h1 := applyRenames_intField d f hint
  cases hl : dictLookup d f with
  | none =>
    rw [foldlFill_default requiredKeys (applyRenames d) f hreq (Or.inl (h1.trans hl))]
    rfl
  | some w =>
    rw [foldlFill_some requiredKeys (applyRenames d) f w (h1.trans hl)]

/-! ## Normalizer lemmas: the timestamp loop -/

theorem fixTsField_other (d : Dict) (g f : String) (h : g ≠ f) :
    dictLookup (fixTsField d g) f = dictLookup d f := by
  unfold fixTsField
  cases hl : dictLookup d g with
  | none => rfl
  | some v =>
    cases v <;> simp only []
    case vStr s =>
      by_cases hs : s = ""
      · simp [hs, dictLookup_dictSet_other _ _ _ _ h]
      · simp [hs]

theorem fixTsField_isSome (d : Dict) (g f : String)
    (h : (dictLookup d f).isSome) :
    (dictLookup (fixTsField d g) f).isSome := by
  by_cases hg : g = f
  · subst hg
    unfold fixTsField
    cases hl : dictLookup d g with
    | none => exact h
    | some v =>
      cases v with
      | vStr s =>
        by_cases hs : s = ""
        · show (dictLookup (if s = "" then dictSet d g PyVal.vNone else d) g).isSome
          rw [if_pos hs, dictLookup_dictSet_self]
          rfl
        · show (dictLookup (if s = "" then dictSet d g PyVal.vNone else d) g).isSome
          rw [if_neg hs]
          exact h
      | vNone => exact h
      | vInt n => exact h
      | vFloat pf => exact h
      | vBool b => exact h
      | vList l => exact h
      | vDict dd => exact h
  · rw [fixTsField_other _ _ _ hg]; exact h

theorem foldlFixTs_isSome (l : List String) (d : Dict) (f : String)
    (h : (dictLookup d f).isSome) :
    (dictLookup (l.foldl fixTsField d) f).isSome := by
  induction l generalizing d with
  | nil => exact h
  | cons hd tl ih => exact ih _ (fixTsField_isSome _ _ _ h)

theorem foldlFixTs_other (l : List String) (d : Dict) (f : String)
    (h : ∀ g ∈ l, g ≠ f) :
    dictLookup (l.foldl fixTsField d) f = dictLookup d f := by
  induction l generalizing d with
  | nil => rfl
  | cons hd tl ih =>
    rw [List.foldl_cons, ih _ (fun g hg => h g (List.mem_cons_of_mem _ hg)),
        fixTsField_other _ _ _ (h hd (List.mem_cons_self _ _))]

/-! ## Loader lemmas -/

theorem hasKey_insertRow_self (t : List Dict) (r : Dict) :
    hasKey (insertRow t r) (msgIdOf r) = true := by
  unfold insertRow
  by_cases hc : hasKey t (msgIdOf r) = true
  · rw [if_pos hc]; exact hc
  · rw [if_neg hc]
    unfold hasKey
    simp [List.any_append]

theorem hasKey_insertRow_mono (t : List Dict) (r : Dict) (k : Option Int)
    (h : hasKey t k = true) : hasKey (insertRow t r) k = true := by
  unfold insertRow
  by_cases hc : hasKey t (msgIdOf r) = true
  · rw [if_pos hc]; exact h
  · rw [if_neg hc]
    unfold hasKey at h ⊢
    simp [List.any_append, h]

theorem hasKey_loadBatch_mono (t b : List Dict) (k : Option Int)
    (h : hasKey t k = true) : hasKey (loadBatch t b) k = true := by
  induction b generalizing t with
  | nil => exact h
  | cons hd tl ih => exact ih _ (hasKey_insertRow_mono _ _ _ h)

theorem hasKey_after_load (t b : List Dict) (r : Dict) (hr : r ∈ b) :
    hasKey (loadBatch t b) (msgIdOf r) = true := by
  induction b generalizing t with
  | nil => cases hr
  | cons hd tl ih =>
    rcases List.mem_cons.mp hr with h | h
    · subst h
      exact hasKey_loadBatch_mono (insertRow t r) tl _ (hasKey_insertRow_self t r)
    · exact ih _ h

theorem insertRow_noop (t : List Dict) (r : Dict)
    (h : hasKey t (msgIdOf r) = true) : insertRow t r = t := by
  unfold insertRow; rw [if_pos h]

theorem loadBatch_noop (t b : List Dict)
    (h : ∀ r ∈ b, hasKey t (msgIdOf r) = true) : loadBatch t b = t := by
  induction b with
  | nil => rfl
  | cons hd tl ih =>
    show loadBatch (insertRow t hd) tl = t
    rw [insertRow_noop t hd (h hd (List.mem_cons_self _ _))]
    exact ih (fun r hr => h r (List.mem_cons_of_mem _ hr))

theorem insertRow_length_le (t : List Dict) (r : Dict) :
    (insertRow t r).length ≤ t.length + 1 := by
  unfold insertRow; split <;> simp

theorem loadBatch_length_le (t b : List Dict) :
    (loadBatch t b).length ≤ t.length + b.length := by
  induction b generalizing t with
  | nil => simp [loadBatch]
  | cons hd tl ih =>
    have h1 : (loadBatch t (hd :: tl)).length = (loadBatch (insertRow t hd) tl).length := rfl
    have h2 := ih (insertRow t hd)
    have h3 := insertRow_length_le t hd
    simp only [List.length_cons]
    omega

/-! ## Scraper lemmas -/

theorem scrapeLoop_floodWait (entity : Entity) (channel scrapedAt : String)
    (pre rest : List IterEvent) (s : Nat) (acc : List TelegramMessage)
    (hpre : ∀ ev ∈ pre, isPostEvent ev = true) :
    scrapeLoop entity channel scrapedAt acc (pre ++ IterEvent.floodWait s :: rest)
      = ⟨acc ++ collectMessages entity channel scrapedAt pre, [s], false⟩ := by
  induction pre generalizing acc with
  | nil => simp [scrapeLoop, collectMessages]
  | cons ev tl ih =>
    cases ev with
    | post p =>
      show scrapeLoop entity channel scrapedAt
          (acc ++ [buildMessage entity channel scrapedAt p]) (tl ++ IterEvent.floodWait s :: rest)
        = ⟨acc ++ collectMessages entity channel scrapedAt (IterEvent.post p :: tl), [s], false⟩
      rw [ih _ (fun e he => hpre e (List.mem_cons_of_mem _ he))]
      simp [collectMessages, List.filterMap_cons]
    | badPost =>
      show scrapeLoop entity channel scrapedAt acc (tl ++ IterEvent.floodWait s :: rest)
        = ⟨acc ++ collectMessages entity channel scrapedAt (IterEvent.badPost :: tl), [s], false⟩
      rw [ih _ (fun e he => hpre e (List.mem_cons_of_mem _ he))]
      simp [collectMessages, List.filterMap_cons]
    | floodWait s' =>
      exact absurd (hpre _ (List.mem_cons_self _ _)) (by simp [isPostEvent])
    | accessError =>
      exact absurd (hpre _ (List.mem_cons_self _ _)) (by simp [isPostEvent])

/-! ## Orchestrator lemmas -/

theorem medical_telegram_pipeline_ok (env : PipelineEnv) (s : ScrapeStageSummary)
    (hs : env.scrapeResult = Except.ok s) :
    medical_telegram_pipeline env
      = Except.ok (start_fastapi (run_yolo_enrichment env.hasYolo env.imagesDirExists
          env.detectResult (run_dbt_transformations
            (load_raw_to_postgres_op env.hasLoader s.scraped_files env.files
              env.loadToRaw).loaded_records env.runRc env.testRc env.docsRc))) := by
  unfold medical_telegram_pipeline
  rw [hs]

/-! ## Claim theorems -/

/-- C1: loading the same batch of normalized Message records twice yields the
same warehouse table — hence the same row count — as loading it once, and an
insert whose `message_id` collides with an already-committed row is silently
dropped without changing the table (no error, no duplicate row). -/
theorem load_idempotent (t batch : List Dict)
    (hids : ∀ r ∈ batch, (msgIdOf r).isSome) :
    loadBatch (loadBatch t batch) batch = loadBatch t batch ∧
    (loadBatch (loadBatch t batch) batch).length = (loadBatch t batch).length ∧
    (∀ r : Dict, hasKey (loadBatch t batch) (msgIdOf r) = true →
      insertRow (loadBatch t batch) r = loadBatch t batch) := by
  have heq : loadBatch (loadBatch t batch) batch = loadBatch t batch :=
    loadBatch_noop _ _ (fun r hr => hasKey_after_load t batch r hr)
  exact ⟨heq, by rw [heq], fun r h => insertRow_noop _ _ h⟩

/-- C1 witness: double-loading a concrete batch with a duplicated
`message_id` equals the single load. -/
theorem load_idempotent_witness :
    (∀ r ∈ batchDup, (msgIdOf r).isSome) ∧
    loadBatch (loadBatch [] batchDup) batchDup = loadBatch [] batchDup :=
  ⟨by decide, (load_idempotent [] batchDup (by decide)).1⟩

/-- C2 counterexample: `{"views": -3}` normalizes to `views = -3`, a
negative integer, and `{"views": Infinity}` (parseable by `json.load`) makes
the normalizer raise an uncaught `OverflowError` instead of returning — so
neither "always non-negative" nor "returns without raising for every input
mapping" holds. -/
theorem normalize_negative_counterexample :
    (∃ out : Dict,
      normalize_record (PyVal.vDict [("views", PyVal.vInt (-3))]) = Except.ok out ∧
      dictLookup out "views" = some (PyVal.vInt (-3))) ∧
    (-3 : Int) < 0 ∧
    normalize_record (PyVal.vDict [("views", PyVal.vFloat PyFloat.posInf)])
      = Except.error PyErr.overflowError :=
  ⟨⟨_, rfl, rfl⟩, by decide, rfl⟩

/-- C2 (amended): on an input mapping none of whose five integer fields
holds a non-finite float, the normalizer returns without raising a record
with all 13 required keys present, the integer fields always integers
(possibly negative), defaulting to `0` when the input field is absent, null,
or fails integer parsing with a caught `ValueError`/`TypeError` (e.g.
`"abc"`); when an integer field holds an infinite float, `int(...)` raises
an `OverflowError` that `except (ValueError, TypeError)` does not catch and
the normalizer raises instead of returning. -/
theorem normalize_total_int_defaults (d : Dict) :
    ((∀ f ∈ intFields, intOverflows (dictLookup d f) = false) →
      ∃ out : Dict, normalize_record (PyVal.vDict d) = Except.ok out ∧
        (∀ k ∈ requiredKeys, (dictLookup out k).isSome) ∧
        (∀ f ∈ intFields, ∃ n : Int, dictLookup out f = some (PyVal.vInt n)) ∧
        (∀ f ∈ intFields, intDefaulted (dictLookup d f) = true →
          dictLookup out f = some (PyVal.vInt 0))) ∧
    (∀ f ∈ intFields, intOverflows (dictLookup d f) = true →
      normalize_record (PyVal.vDict d) = Except.error PyErr.overflowError) := by
  have hmem : ∀ f ∈ intFields, f ∈ requiredKeys := by decide
  have hts : ∀ f ∈ intFields, ∀ g ∈ tsFields, g ≠ f := by decide
  constructor
  · intro hno
    have hno2 : ∀ f ∈ intFields,
        intOverflows (dictLookup (requiredKeys.foldl fillOne (applyRenames d)) f)
          = false := by
      intro f hf
      rw [fill_intOverflows d f (hmem f hf) hf]
      exact hno f hf
    obtain ⟨d2, hd2⟩ :=
      coerceAux_ok_of_noOverflow intFields (requiredKeys.foldl fillOne (applyRenames d)) hno2
    refine ⟨tsFields.foldl fixTsField d2, ?_, ?_, ?_, ?_⟩
    · show normalizeDict d = _
      unfold normalizeDict coerceIntFields fillRequired
      rw [hd2]
    · intro k hk
      exact foldlFixTs_isSome tsFields d2 k
        (coerceAux_isSome intFields _ d2 k
          (foldlFill_mem_isSome requiredKeys (applyRenames d) k hk) hd2)
    · intro f hf
      obtain ⟨n, hn⟩ := coerceAux_mem_vInt intFields _ d2 f hf
        (foldlFill_mem_isSome requiredKeys (applyRenames d) f (hmem f hf)) hd2
      refine ⟨n, ?_⟩
      rw [foldlFixTs_other tsFields d2 f (hts f hf)]
      exact hn
    · intro f hf hdef
      rw [foldlFixTs_other tsFields d2 f (hts f hf)]
      have h1 : dictLookup (applyRenames d) f = dictLookup d f :=
        applyRenames_intField d f hf
      have hdEx : ∃ v,
          dictLookup (requiredKeys.foldl fillOne (applyRenames d)) f = some v ∧
          intDefaulted (some v) = true := by
        cases hl : dictLookup d f with
        | none =>
          exact ⟨PyVal.vNone,
            foldlFill_default requiredKeys (applyRenames d) f (hmem f hf)
              (Or.inl (h1.trans hl)), rfl⟩
        | some v =>
          refine ⟨v, foldlFill_some requiredKeys (applyRenames d) f v (h1.trans hl), ?_⟩
          unfold intDefaulted at hdef ⊢
          rw [hl] at hdef
          exact hdef
      exact coerceAux_mem_default intFields _ d2 f hf hdEx hd2
  · intro f hf hov
    have hov2 : intOverflows
        (dictLookup (requiredKeys.foldl fillOne (applyRenames d)) f) = true := by
      rw [fill_intOverflows d f (hmem f hf) hf]
      exact hov
    show normalizeDict d = _
    unfold normalizeDict coerceIntFields fillRequired
    rw [coerceAux_err_of_overflow intFields _ f hf hov2]

/-- C2 witness: `{"views": "abc"}` normalizes without raising to a record
with `views = 0` and `message_id` present, while `{"views": Infinity}`
satisfies the overflow condition and makes the normalizer raise. -/
theorem normalize_total_int_defaults_witness :
    intDefaulted (dictLookup [("views", PyVal.vStr "abc")] "views") = true ∧
    (∃ out : Dict,
      normalize_record (PyVal.vDict [("views", PyVal.vStr "abc")]) = Except.ok out ∧
      dictLookup out "views" = some (PyVal.vInt 0) ∧
      (dictLookup out "message_id").isSome) ∧
    intOverflows (dictLookup [("views", PyVal.vFloat PyFloat.posInf)] "views") = true ∧
    normalize_record (PyVal.vDict [("views", PyVal.vFloat PyFloat.posInf)])
      = Except.error PyErr.overflowError := by
  refine ⟨by rfl, ?_, by rfl, ?_⟩
  · obtain ⟨out, ho, hk, hi, hdf⟩ :=
      (normalize_total_int_defaults [("views", PyVal.vStr "abc")]).1 (by decide)
    exact ⟨out, ho, hdf "views" (by decide) (by rfl), hk "message_id" (by decide)⟩
  · exact (normalize_total_int_defaults [("views", PyVal.vFloat PyFloat.posInf)]).2
      "views" (by decide) (by rfl)

/-- C3 counterexample: with enumeration `[post, floodWait 5, post]` the
scraper sleeps 5 s, raises nothing and keeps the first message, but the post
after the throttle is never collected — enumeration is not resumed. -/
theorem scrape_throttle_counterexample :
    throttledRun.sleeps = [5] ∧ throttledRun.raised = false ∧
    throttledRun.messages.length = 1 :=
  ⟨rfl, rfl, rfl⟩

/-- C3 (amended): a throttle signal makes the scraper pause for the indicated
duration without raising and loses none of the messages already collected,
but it does not resume enumeration: the channel call ends at the signal and
returns only the messages collected before it. -/
theorem scrape_throttle_amended (entity : Entity) (channel scrapedAt : String)
    (pre rest : List IterEvent) (s : Nat)
    (hpre : ∀ ev ∈ pre, isPostEvent ev = true) :
    scrape_channel (ResolveResult.ok entity (pre ++ IterEvent.floodWait s :: rest))
        channel scrapedAt
      = ⟨collectMessages entity channel scrapedAt pre, [s], false⟩ := by
  show scrapeLoop entity channel scrapedAt [] (pre ++ IterEvent.floodWait s :: rest) = _
  rw [scrapeLoop_floodWait entity channel scrapedAt pre rest s [] hpre]
  rfl

/-- C3 witness: the amended statement at the concrete throttled enumeration. -/
theorem scrape_throttle_amended_witness :
    scrape_channel
        (ResolveResult.ok ⟨7, some "chan", some "T"⟩
          ([IterEvent.post (plainPost 1)] ++
            IterEvent.floodWait 5 :: [IterEvent.post (plainPost 2)]))
        "@cheMed123" "t0"
      = ⟨collectMessages ⟨7, some "chan", some "T"⟩ "@cheMed123" "t0"
          [IterEvent.post (plainPost 1)], [5], false⟩ :=
  scrape_throttle_amended ⟨7, some "chan", some "T"⟩ "@cheMed123" "t0"
    [IterEvent.post (plainPost 1)] [IterEvent.post (plainPost 2)] 5 (by decide)

/-- C4 counterexample: when only the `test` sub-command fails (exit 1), the
stage summary is `dbt_status = "success"` with `tests_passed = true` — not
`tests_passed = false` as claimed. -/
theorem dbt_test_flag_counterexample :
    (run_dbt_transformations 0 0 1 0).dbt_status = "success" ∧
    (run_dbt_transformations 0 0 1 0).tests_passed = true ∧
    ¬((run_dbt_transformations 0 0 1 0).tests_passed = false) := by
  have h : run_dbt_transformations 0 0 1 0 = ⟨"success", 0, true, none⟩ := by
    simp [run_dbt_transformations, runDbtCommands]
  rw [h]
  exact ⟨rfl, rfl, by simp⟩

/-- C4 (amended): a failure of the `test` sub-command is non-fatal and only
logged — the stage proceeds and its summary reports `dbt_status = "success"`
with `tests_passed = true` (the flag does not record the test failure); a
failure of `run` or `docs` is caught and reported as a failed-stage summary
(`dbt_status = "failed"`, `tests_passed = false`) rather than propagated, and
the pipeline always continues to the next stage. -/
theorem dbt_failure_policy_amended (loaded : Nat) (runRc testRc docsRc : Int) :
    (runRc = 0 → docsRc = 0 →
      run_dbt_transformations loaded runRc testRc docsRc
        = ⟨"success", loaded, true, none⟩) ∧
    (runRc ≠ 0 →
      run_dbt_transformations loaded runRc testRc docsRc
        = ⟨"failed", loaded, false, some "dbt command failed: run"⟩) ∧
    (runRc = 0 → docsRc ≠ 0 →
      run_dbt_transformations loaded runRc testRc docsRc
        = ⟨"failed", loaded, false, some "dbt command failed: docs"⟩) ∧
    (∀ env : PipelineEnv, ∀ s : ScrapeStageSummary, env.scrapeResult = Except.ok s →
      ∃ pub : PublishSummary, medical_telegram_pipeline env = Except.ok pub) := by
  refine ⟨?_, ?_, ?_, ?_⟩
  · intro h1 h2
    simp [run_dbt_transformations, runDbtCommands, h1, h2]
  · intro h
    simp [run_dbt_transformations, runDbtCommands, h]
  · intro h1 h2
    simp [run_dbt_transformations, runDbtCommands, h1, h2]
  · intro env s hs
    exact ⟨_, medical_telegram_pipeline_ok env s hs⟩

/-- C4 witness: the amended statement at concrete exit codes — a test-only
failure yields the hardcoded success summary; a `run` failure yields the
failed summary. -/
theorem dbt_failure_policy_witness :
    run_dbt_transformations 0 0 1 0 = ⟨"success", 0, true, none⟩ ∧
    run_dbt_transformations 0 1 0 0 = ⟨"failed", 0, false, some "dbt command failed: run"⟩ :=
  ⟨(dbt_failure_policy_amended 0 0 1 0).1 rfl rfl,
   (dbt_failure_policy_amended 0 1 0 0).2.1 (by decide)⟩

/-- C5 counterexample: loading a one-record batch whose `message_id` already
sits in the table inserts 0 rows but reports 1 — the reported count is not
the count actually inserted. -/
theorem loader_reported_count_counterexample :
    collidedRun.2 = some 1 ∧
    collidedRun.1.length - 1 = 0 ∧
    ¬(collidedRun.2 = some (collidedRun.1.length - 1)) := by decide

/-- C5 (amended): for a non-empty batch, `main` reports the size of the
batch — counting records dropped by a `message_id` collision as loaded —
which is an upper bound on, but not necessarily equal to, the number of rows
actually inserted. -/
theorem loader_reports_batch_size (t records : List Dict) (h : records ≠ []) :
    (mainRun t records).2 = some records.length ∧
    (mainRun t records).1.length - t.length ≤ records.length := by
  have hne : records.isEmpty = false := by
    cases records with
    | nil => exact absurd rfl h
    | cons a l => rfl
  constructor
  · simp [mainRun, hne]
  · have hb := loadBatch_length_le t records
    simp only [mainRun, hne, Bool.false_eq_true, if_false]
    omega

/-- C5 witness: the amended statement at a concrete one-record batch. -/
theorem loader_reports_batch_size_witness :
    (mainRun [] [[("message_id", PyVal.vInt 1)]]).2 = some 1 :=
  (loader_reports_batch_size [] [[("message_id", PyVal.vInt 1)]]
    (List.cons_ne_nil _ _)).1

/-- C6: when the detector module or the images directory is unavailable, the
Enrich summary reports `status = "skipped"` with `detected_images = 0`, and
the pipeline still reaches Publish, whose summary is `api_status = "ready"`
with `total_processed = 0`. -/
theorem enrich_skipped_reaches_publish (env : PipelineEnv) (s : ScrapeStageSummary)
    (hs : env.scrapeResult = Except.ok s)
    (h : env.hasYolo = false ∨ env.imagesDirExists = false) :
    (∀ tr : DbtSummary,
      (run_yolo_enrichment env.hasYolo env.imagesDirExists env.detectResult tr).yolo_status
        = "skipped" ∧
      (run_yolo_enrichment env.hasYolo env.imagesDirExists env.detectResult tr).detected_images
        = 0) ∧
    (∃ pub : PublishSummary, medical_telegram_pipeline env = Except.ok pub ∧
      pub.api_status = "ready" ∧ pub.yolo_status = "skipped" ∧ pub.total_processed = 0) := by
  have hy : ∀ tr : DbtSummary,
      (run_yolo_enrichment env.hasYolo env.imagesDirExists env.detectResult tr).yolo_status
        = "skipped" ∧
      (run_yolo_enrichment env.hasYolo env.imagesDirExists env.detectResult tr).detected_images
        = 0 := by
    intro tr
    rcases h with h | h
    · simp [run_yolo_enrichment, h]
    · cases hv : env.hasYolo <;> simp [run_yolo_enrichment, hv, h]
  refine ⟨hy, ?_⟩
  rw [medical_telegram_pipeline_ok env s hs]
  exact ⟨_, rfl, rfl, (hy _).1, (hy _).2⟩

/-- C6 witness: the concrete detector-unavailable environment reaches a ready
Publish summary. -/
theorem enrich_skipped_reaches_publish_witness :
    ∃ pub : PublishSummary, medical_telegram_pipeline envSkip = Except.ok pub ∧
      pub.api_status = "ready" ∧ pub.yolo_status = "skipped" ∧ pub.total_processed = 0 :=
  (enrich_skipped_reaches_publish envSkip ⟨3⟩ rfl (Or.inl rfl)).2

/-- C7: for every per-channel counts mapping, the written manifest's
`total_messages` equals the sum of the mapping's values and its `channels`
field is exactly the input mapping. -/
theorem manifest_totals_correct (dateStr runUtc : String)
    (counts : List (String × Int)) :
    dictLookup (write_manifest dateStr runUtc counts none) "total_messages"
      = some (PyVal.vInt (sumCounts counts)) ∧
    dictLookup (write_manifest dateStr runUtc counts none) "channels"
      = some (PyVal.vDict (counts.map (fun p => (p.1, PyVal.vInt p.2)))) :=
  ⟨rfl, rfl⟩

/-- C8 counterexample: an entity with a missing title yields
`channel_title = ""`, not the configured channel identifier. -/
theorem title_fallback_counterexample :
    (buildMessage ⟨7, some "chan", none⟩ "@cheMed123" "t0" emptyPost).channel_title = "" ∧
    ¬((buildMessage ⟨7, some "chan", none⟩ "@cheMed123" "t0" emptyPost).channel_title
        = "@cheMed123") := by
  refine ⟨rfl, by decide⟩

/-- C8 (amended): a missing username falls back to the configured channel
identifier, but a missing title falls back to the empty string; a
reply-count extraction failure (or absent replies) yields `replies = 0`, and
missing message text yields the empty string. -/
theorem message_defaults_amended (entity : Entity) (channel scrapedAt : String) (p : Post) :
    (entity.username = none →
      (buildMessage entity channel scrapedAt p).channel_username = channel) ∧
    (entity.title = none →
      (buildMessage entity channel scrapedAt p).channel_title = "") ∧
    ((p.replies = ReplyInfo.absent ∨ p.replies = ReplyInfo.malformed) →
      (buildMessage entity channel scrapedAt p).replies = 0) ∧
    (p.text = none → (buildMessage entity channel scrapedAt p).text = "") := by
  refine ⟨?_, ?_, ?_, ?_⟩
  · intro h; simp [buildMessage, pyOrStr, h]
  · intro h; simp [buildMessage, pyOrStr, h]
  · intro h; rcases h with h | h <;> simp [buildMessage, extract_replies, h]
  · intro h; simp [buildMessage, pyOrStr, h]

/-- C8 witness: the amended defaults at a concrete bare entity and post. -/
theorem message_defaults_amended_witness :
    (buildMessage ⟨7, none, none⟩ "@ch" "t0" emptyPost).channel_username = "@ch" ∧
    (buildMessage ⟨7, none, none⟩ "@ch" "t0" emptyPost).channel_title = "" ∧
    (buildMessage ⟨7, none, none⟩ "@ch" "t0" emptyPost).replies = 0 ∧
    (buildMessage ⟨7, none, none⟩ "@ch" "t0" emptyPost).text = "" :=
  have h := message_defaults_amended ⟨7, none, none⟩ "@ch" "t0" emptyPost
  ⟨h.1 rfl, h.2.1 rfl, h.2.2.1 (Or.inr rfl), h.2.2.2 rfl⟩

/-- C9: with the loader available and a non-zero scrape count, the Load stage
only ever processes the first 50 JSON files — appending further files changes
nothing — and still reports `status = "success"` with the partial count. -/
theorem load_stage_file_limit (sf : Nat) (files extra : List (Except String PyVal))
    (ld : PyVal → Nat) (hsf : sf ≠ 0) (hlen : 50 ≤ files.length) :
    load_raw_to_postgres_op true sf files ld
      = load_raw_to_postgres_op true sf (files.take 50) ld ∧
    load_raw_to_postgres_op true sf (files ++ extra) ld
      = load_raw_to_postgres_op true sf files ld ∧
    (load_raw_to_postgres_op true sf files ld).status = "success" := by
  have htake : (files ++ extra).take 50 = files.take 50 :=
    List.take_append_of_le_length hlen
  have htt : (files.take 50).take 50 = files.take 50 := by
    simp [List.take_take]
  refine ⟨?_, ?_, ?_⟩
  · simp [load_raw_to_postgres_op, hsf, htt]
  · simp [load_raw_to_postgres_op, hsf, htake]
  · simp [load_raw_to_postgres_op, hsf]

/-- C9 witness: with 50 error files, appending a 51st (valid, non-empty) file
does not change the Load summary, which reports success. -/
theorem load_stage_file_limit_witness :
    (load_raw_to_postgres_op true 1 manyFiles (fun _ => 1)).status = "success" ∧
    load_raw_to_postgres_op true 1 (manyFiles ++ [Except.ok (PyVal.vList [PyVal.vInt 1])])
        (fun _ => 1)
      = load_raw_to_postgres_op true 1 manyFiles (fun _ => 1) :=
  have h := load_stage_file_limit 1 manyFiles [Except.ok (PyVal.vList [PyVal.vInt 1])]
    (fun _ => 1) (by decide) (by simp [manyFiles])
  ⟨h.2.2, h.2.1⟩

/-- C10: a non-dict input (list, string, null, …) makes `normalize_record`
return the empty record — no error, and none of the 13 required keys. -/
theorem normalize_non_dict_empty (v : PyVal) (h : isDictVal v = false) :
    normalize_record v = Except.ok [] ∧
    (∀ out : Dict, normalize_record v = Except.ok out →
      ∀ k ∈ requiredKeys, dictLookup out k = none) := by
  have he : normalize_record v = Except.ok [] := by
    cases v with
    | vDict d => simp [isDictVal] at h
    | vNone => rfl
    | vInt n => rfl
    | vFloat pf => rfl
    | vStr s => rfl
    | vBool b => rfl
    | vList l => rfl
  refine ⟨he, ?_⟩
  intro out hout k hk
  rw [he] at hout
  injection hout with h2
  rw [← h2]
  rfl

/-- C10 witness: the list input `[1]` yields the empty record. -/
theorem normalize_non_dict_empty_witness :
    isDictVal (PyVal.vList [PyVal.vInt 1]) = false ∧
    normalize_record (PyVal.vList [PyVal.vInt 1]) = Except.ok [] :=
  ⟨rfl, (normalize_non_dict_empty (PyVal.vList [PyVal.vInt 1]) rfl).1⟩

end MedWarehouse
